import Mathlib

/-
  Verification development for the ID_Generator repository.

  Shallow embedding of the record-to-image composition engine
  (backend/src/utils/render.js), the batch page-layout pipeline
  (backend/src/routes/generate.js) and the CMYK conversion/validation
  module (the enhanced cmykPdf module required by generate.js).

  JavaScript numbers are modelled as exact rationals, buffers as lists of
  bytes, and the external collaborators (sharp, GridFS, HTTP, the
  filesystem and Ghostscript) as explicit environments whose operations
  return Except values when the original call can throw.
-/

namespace IDGen

/-- Byte buffers (Node Buffer values) are modelled as lists of bytes. -/
abbrev Buffer := List Nat

/-- Math.round as in JavaScript: floor of the argument plus one half. -/
def jsRound (q : ℚ) : ℤ := ⌊q + 1/2⌋

/-- Math.floor on a JavaScript number. -/
def jsFloor (q : ℚ) : ℤ := ⌊q⌋

/-- JavaScript truthiness of an optional string value: undefined and the
empty string are falsy, every other string is truthy. -/
def jsTruthy : Option String → Bool
  | none => false
  | some s => s ≠ ""

/-- The expression String(v or-else the empty string) used by render.js:
undefined becomes the empty string, a string stays itself. -/
def jsStringOrEmpty : Option String → String
  | none => ""
  | some s => s

/-- ASCII lower-casing of one character, as toLowerCase acts on the
ASCII range. -/
def lowerChar (c : Char) : Char :=
  if 65 ≤ c.toNat ∧ c.toNat ≤ 90 then Char.ofNat (c.toNat + 32) else c

/-- ASCII lower-casing of a string. -/
def lowerStr (s : String) : String := String.mk (s.toList.map lowerChar)

/-- Test whether the first string starts with the second. -/
def startsWithStr (s p : String) : Bool := p.toList.isPrefixOf s.toList

/-- The expression value.split(comma) indexed at 1 with an empty-string
default, as used for data-URIs in loadImageBuffer: the segment between
the first and second comma, or empty when there is no comma. -/
def splitSeg1 (s : String) : String :=
  String.mk (((s.toList.dropWhile (fun c => c ≠ ',')).drop 1).takeWhile
    (fun c => c ≠ ','))

/-- Substring test on character lists, mirroring String.prototype.includes. -/
def infixCheck (p : List Char) : List Char → Bool
  | [] => p.isEmpty
  | c :: t => p.isPrefixOf (c :: t) || infixCheck p t

/-- Substring test on strings, mirroring String.prototype.includes. -/
def isSubstring (pat hay : String) : Bool := infixCheck pat.toList hay.toList

/-- Character class [a-f0-9] of the hex-id regular expressions, applied
case-insensitively by render.js. -/
def isHexChar (c : Char) : Bool :=
  (decide ('0' ≤ c) && decide (c ≤ '9')) ||
  (decide ('a' ≤ c) && decide (c ≤ 'f')) ||
  (decide ('A' ≤ c) && decide (c ≤ 'F'))

/-- Test for the anchored pattern of exactly 24 hex characters used to
recognise GridFS object ids in render.js. -/
def isHex24 (s : String) : Bool :=
  s.length == 24 && s.toList.all isHexChar

/-! Data model, following the mongoose Template schema. -/

/-- Text style of a field, with the default values applied by makeTextSVG. -/
structure Style where
  fontFamily : String := "Arial"
  fontSize : ℚ := 18
  color : String := "#000000"
  bold : Bool := false
  italic : Bool := false
  align : String := "left"
deriving Repr, DecidableEq

/-- One positioned field of a template, following FieldSchema. -/
structure Field where
  id : String
  name : String
  type : String
  x : ℚ
  y : ℚ
  width : ℚ
  height : ℚ
  zIndex : ℚ := 0
  style : Style := {}
deriving Repr, DecidableEq

/-- Reference to the stored base image of a template. -/
structure ImageRef where
  storage : String := "gridfs"
  key : String := ""
deriving Repr, DecidableEq

/-- Stored metadata of the uploaded base image. -/
structure ImageMeta where
  width : ℚ
  height : ℚ
  size : ℚ := 0
deriving Repr, DecidableEq

/-- A template document, following TemplateSchema. The mapping object is
modelled as an association list from field id to column name. -/
structure Template where
  name : String := ""
  image : ImageRef := {}
  imageMeta : Option ImageMeta := none
  fields : List Field := []
  mapping : List (String × String) := []
deriving Repr, DecidableEq

/-- A data record: one dataset row, mapping column names to values.
Values are modelled as strings; an absent column reads as undefined. -/
abbrev DataRecord := List (String × String)

/-! Embedding of render.js. -/

/-- Rasterised text layer produced by makeTextSVG in render.js: the SVG
markup is represented by its constituent data rather than as raw text. -/
structure TextSVG where
  text : String
  width : ℚ
  height : ℚ
  weight : String
  fontStyle : String
  anchor : String
  xAnchor : ℚ
  yBaseline : ℚ
  style : Style
deriving Repr, DecidableEq

/-- Model of makeTextSVG: computes the anchor, the x position, the font
weight and style exactly as the SVG string is built in render.js. -/
def makeTextSVG (text : Option String) (width height : ℚ) (style : Style) : TextSVG :=
  { text := jsStringOrEmpty text
    width := width
    height := height
    weight := if style.bold then "700" else "400"
    fontStyle := if style.italic then "italic" else "normal"
    anchor := if style.align = "center" then "middle"
              else if style.align = "right" then "end" else "start"
    xAnchor := if style.align = "center" then width / 2
               else if style.align = "right" then width else 0
    yBaseline := max style.fontSize 4
    style := style }

/-- Image-extension alternatives of the looksLikeImageUrl pattern. -/
def imageExts : List String := ["png", "jpg", "jpeg", "gif", "webp", "bmp", "svg"]

/-- Suffix test: does the lowered character list end in a dot followed by
one of the known image extensions. -/
def endsWithImageExt (l : List Char) : Bool :=
  imageExts.any (fun e => ("." ++ e).toList.isSuffixOf l)

/-- Pattern dot-extension optionally followed by a query string anchored at
the end, as in the final alternative of looksLikeImageUrl. -/
def hasImageExtension (s : String) : Bool :=
  let l := s.toList.map lowerChar
  (List.range (l.length + 1)).any (fun i =>
    endsWithImageExt (l.take i) &&
      ((l.drop i).isEmpty || (l.drop i).head? == some '?'))

/-- Model of looksLikeImageUrl in render.js: protocol-relative or HTTP(S)
URLs, data-URIs with an image MIME type, internal files routes, or names
ending in a known image extension with an optional query. -/
def looksLikeImageUrl (v : String) : Bool :=
  let l := lowerStr v
  startsWithStr l "//" || startsWithStr l "http://" ||
  startsWithStr l "https://" || startsWithStr l "data:image/" ||
  startsWithStr l "/files/" || hasImageExtension v

/-- Decoded raster image dimensions as reported by sharp metadata. -/
structure SharpMeta where
  width : ℕ
  height : ℕ
deriving Repr, DecidableEq

/-- One entry of the composites array passed to sharp composite: either a
resized image layer or a rasterised text layer, with integer placement. -/
inductive Layer where
  | image (buf : Buffer) (resizeW resizeH : ℤ) (left top : ℤ)
  | text (svg : TextSVG) (left top : ℤ)
deriving Repr, DecidableEq

/-- Environment of external collaborators for render.js: GridFS reads,
sharp decoding, resizing and compositing, HTTP fetches, filesystem
reads and base64 decoding. Operations that can throw in JavaScript
return Except. The compositePng operation stands for the final sharp
composite, png and toBuffer chain, which can reject depending on the
layers handed to it (for instance a malformed SVG text layer, since
render.js interpolates raw values into the SVG markup unescaped, or an
out-of-bounds overlay); on success the encoded output keeps the base
image dimensions. -/
structure RenderEnv where
  gridfsRead : String → String → Except String (Option Buffer)
  decodeBuffer : Buffer → Except String SharpMeta
  decodeFile : String → Except String SharpMeta
  resize : Buffer → ℤ → ℤ → Except String Buffer
  compositePng : List Layer → Except String Unit
  httpFetch : String → Except String Buffer
  fileRead : String → Option Buffer
  decodeBase64 : String → Buffer

/-- Parse of the anchored files-route pattern of loadImageBuffer: a
/files/ prefix, a non-empty bucket segment without slashes, a slash, a
24-character hex id, then end of string or a word boundary. Returns the
captured bucket and id. -/
def filesMatch (v : String) : Option (String × String) :=
  if startsWithStr (lowerStr v) "/files/" then
    let rest := (v.toList).drop 7
    let bucket := rest.takeWhile (fun c => c ≠ '/')
    let afterBucket := rest.dropWhile (fun c => c ≠ '/')
    match afterBucket with
    | '/' :: idAndTail =>
      let idPart := idAndTail.take 24
      let tail := idAndTail.drop 24
      let boundaryOk := match tail with
        | [] => true
        | c :: _ => !(c.isAlphanum || c == '_')
      if !bucket.isEmpty && idPart.length == 24 && idPart.all isHexChar &&
          boundaryOk then
        some (String.mk bucket, String.mk idPart)
      else none
    | _ => none
  else none

/-- Model of loadImageBuffer in render.js. The outer try/catch maps any
thrown error to null; the inner GridFS try/catch falls through to the
remaining strategies. -/
def loadImageBuffer (env : RenderEnv) (value : String) : Option Buffer :=
  if value = "" then none
  else if startsWithStr (lowerStr value) "data:image/" then
    some (env.decodeBase64 (splitSeg1 value))
  else
    let gridFirst : Option Buffer :=
      match filesMatch value with
      | some (bucket, id) =>
        match env.gridfsRead id bucket with
        | .ok (some buf) => some buf
        | _ => none
      | none => none
    match gridFirst with
    | some buf => some buf
    | none =>
      if startsWithStr (lowerStr value) "http://" ||
          startsWithStr (lowerStr value) "https://" then
        match env.httpFetch value with
        | .ok b => some b
        | .error _ => none
      else
        env.fileRead value

/-- Left coordinate of a composite layer. -/
def Layer.left : Layer → ℤ
  | .image _ _ _ l _ => l
  | .text _ l _ => l

/-- Top coordinate of a composite layer. -/
def Layer.top : Layer → ℤ
  | .image _ _ _ _ t => t
  | .text _ _ t => t

/-- Test whether a composite layer is an image layer. -/
def Layer.isImage : Layer → Bool
  | .image _ _ _ _ _ => true
  | .text _ _ _ => false

/-- Source-value lookup of renderOne: template.mapping keyed by the field
id, then the record keyed by the mapped column; a falsy mapping entry
yields undefined. -/
def resolveSource (t : Template) (record : DataRecord) (fieldId : String) :
    Option String :=
  match t.mapping.lookup fieldId with
  | some col => if col = "" then none else record.lookup col
  | none => none

/-- Default text rendering of a field, as in the final branch of the field
loop of renderOne. -/
def textLayer (f : Field) (sourceValue : Option String) : Layer :=
  .text (makeTextSVG sourceValue f.width f.height f.style)
    (jsRound f.x) (jsRound f.y)

/-- Body of the field loop of renderOne: image fields, and text fields
whose value looks like an image URL, are composed as cover-resized images;
a failed load or resize falls through to the text rendering. -/
def renderField (env : RenderEnv) (f : Field) (sourceValue : Option String) :
    Layer :=
  if (f.type == "image" ||
      (f.type != "image" && looksLikeImageUrl (jsStringOrEmpty sourceValue)))
      && jsTruthy sourceValue then
    match loadImageBuffer env (jsStringOrEmpty sourceValue) with
    | some buf =>
      match env.resize buf (jsRound f.width) (jsRound f.height) with
      | .ok resized =>
        .image resized (jsRound f.width) (jsRound f.height)
          (jsRound f.x) (jsRound f.y)
      | .error _ => textLayer f sourceValue
    | none => textLayer f sourceValue
  else textLayer f sourceValue

/-- Base-image resolution of renderOne: a GridFS read when the storage is
gridfs or the key is a 24-hex id (errors propagate, they are not caught),
then sharp metadata of the buffer or of the key treated as a path. -/
def templateBaseMeta (env : RenderEnv) (t : Template) : Except String SharpMeta := do
  let fromGrid := t.image.storage == "gridfs" || isHex24 t.image.key
  let baseBuf ← if fromGrid then env.gridfsRead t.image.key "templates"
                else .ok none
  match baseBuf with
  | some b => env.decodeBuffer b
  | none => env.decodeFile t.image.key

/-- Output image of renderOne: the base image dimensions together with the
composite layers; sharp composite and PNG encoding keep the base
dimensions. -/
structure ComposedImage where
  width : ℕ
  height : ℕ
  layers : List Layer
deriving Repr, DecidableEq

/-- Return value of renderOne: the encoded buffer (modelled by its
composed content) and the metadata width and height. -/
structure RenderedCard where
  image : ComposedImage
  width : ℕ
  height : ℕ
deriving Repr, DecidableEq

/-- Composite layers of one record render: every template field in array
order, each rendered from its resolved source value. -/
def renderLayers (env : RenderEnv) (t : Template) (record : DataRecord) :
    List Layer :=
  t.fields.map (fun f => renderField env f (resolveSource t record f.id))

/-- Model of renderOne in render.js: resolve the base image, compute its
metadata, render every field in array order, then run the final sharp
composite, png and toBuffer chain, whose rejection (for instance on a
malformed fallback SVG layer) propagates to the caller; on success the
buffer is returned with the base metadata dimensions. -/
def renderOne (env : RenderEnv) (t : Template) (record : DataRecord) :
    Except String RenderedCard := do
  let meta ← templateBaseMeta env t
  match env.compositePng (renderLayers env t record) with
  | .error e => .error e
  | .ok _ =>
    .ok { image := { width := meta.width, height := meta.height
                     layers := renderLayers env t record }
          width := meta.width
          height := meta.height }

/-! Embedding of the batch route of generate.js: page geometry, layout
planner, pagination loop, per-cell fit and the range handling. -/

/-- A4 page width in points as fixed in the batch route. -/
def pageWidth : ℚ := 595.28

/-- A4 page height in points as fixed in the batch route. -/
def pageHeight : ℚ := 841.89

/-- Page margin in points as fixed in the batch route. -/
def pageMargin : ℚ := 20

/-- Usable width of a page: page width minus margins on both sides. -/
def usableWidth : ℚ := pageWidth - 2 * pageMargin

/-- Usable height of a page: page height minus margins on both sides. -/
def usableHeight : ℚ := pageHeight - 2 * pageMargin

/-- Template dimensions used for the aspect ratio, with the 400 and 250
fallbacks applied by the route when imageMeta is missing or falsy. -/
def templateDims (t : Template) : ℚ × ℚ :=
  match t.imageMeta with
  | some m => ((if m.width = 0 then 400 else m.width),
               (if m.height = 0 then 250 else m.height))
  | none => (400, 250)

/-- A candidate or chosen page layout, as assembled in the batch route. -/
structure LayoutPlan where
  cardWidth : ℚ
  cardHeight : ℚ
  cardsPerRow : ℤ
  cardsPerCol : ℤ
  cardsPerPage : ℤ
deriving Repr, DecidableEq

/-- Layout derived from one candidate card width: height from the aspect
ratio, per-row and per-column counts by flooring the usable dimensions. -/
def layoutFor (aspectRatio uw uh : ℚ) (w : ℚ) : LayoutPlan :=
  let h := w / aspectRatio
  let rows := jsFloor (uw / w)
  let cols := jsFloor (uh / h)
  { cardWidth := w
    cardHeight := h
    cardsPerRow := rows
    cardsPerCol := cols
    cardsPerPage := rows * cols }

/-- Candidate card widths visited by the search loop: 200 ascending in
steps of 20 while at most the minimum of 400 and the usable width. -/
def testWidths (uw : ℚ) : List ℚ :=
  ((List.range 11).map (fun k : ℕ => (200 : ℚ) + 20 * (k : ℚ))).filter
    (fun w => w ≤ min 400 uw)

/-- A candidate layout passes the grid test when both the per-row and the
per-column counts are positive. -/
def gridPositive (L : LayoutPlan) : Prop :=
  0 < L.cardsPerRow ∧ 0 < L.cardsPerCol

instance (L : LayoutPlan) : Decidable (gridPositive L) := by
  unfold gridPositive; infer_instance

/-- One step of the best-layout search: a candidate replaces the current
best exactly when its cards-per-page count strictly exceeds the running
maximum and both grid counts are positive. -/
def selectStep (s : Option LayoutPlan × ℤ) (L : LayoutPlan) :
    Option LayoutPlan × ℤ :=
  if L.cardsPerPage > s.2 ∧ 0 < L.cardsPerRow ∧ 0 < L.cardsPerCol then
    (some L, L.cardsPerPage)
  else s

/-- The bestLayout variable after the search loop of the batch route:
fold of selectStep over the candidate layouts, starting from null and a
running maximum of zero. -/
def bestLayout (aspectRatio uw uh : ℚ) : Option LayoutPlan :=
  (((testWidths uw).map (layoutFor aspectRatio uw uh)).foldl
    selectStep (none, 0)).1

/-- The layout destructured by the route: the best layout when the search
found one, otherwise the fallback with fixed width 280 and derived
height, which is the same computation as a candidate of width 280. -/
def planLayout (aspectRatio uw uh : ℚ) : LayoutPlan :=
  (bestLayout aspectRatio uw uh).getD (layoutFor aspectRatio uw uh 280)

/-- In-loop cell computation of the batch route for the running card
count: the cell index inside the page, then the row and the column. -/
def cellOf (cardsPerPage cardsPerRow count : ℕ) : ℕ × ℕ × ℕ :=
  let cardIndex := count % cardsPerPage
  (cardIndex, cardIndex / cardsPerRow, cardIndex % cardsPerRow)

/-- New-page condition of the batch route for the running card count: the
count is a multiple of cards-per-page and positive. -/
def newPageBefore (cardsPerPage count : ℕ) : Bool :=
  count % cardsPerPage == 0 && decide (0 < count)

/-- Pagination loop of the batch route, modelled over the list of record
indices. The state carries the running card count and the current page in
reverse order; a new page is opened exactly when the new-page condition
holds, and the last page is emitted at the end. -/
def composeLoop (cpp : ℕ) : ℕ → List ℕ → List ℕ → List (List ℕ)
  | _, cur, [] => [cur.reverse]
  | count, cur, r :: rs =>
    if count % cpp = 0 ∧ 0 < count then
      cur.reverse :: composeLoop cpp (count + 1) [r] rs
    else
      composeLoop cpp (count + 1) (r :: cur) rs

/-- Pages produced by the batch route for a list of record indices,
starting from a card count of zero and the single initial page. -/
def composePages (cpp : ℕ) (rs : List ℕ) : List (List ℕ) :=
  composeLoop cpp 0 [] rs

/-- Reference chunking of a list into consecutive groups of the page
size, used to state what the pagination loop computes. -/
def chunkPages (cpp : ℕ) : List ℕ → List (List ℕ)
  | [] => []
  | r :: rs =>
    (r :: rs.take (cpp - 1)) :: chunkPages cpp (rs.drop (cpp - 1))
termination_by l => l.length
decreasing_by simp only [List.length_drop, List.length_cons]; omega

/-- Per-cell fit of the batch route: the final width and height and the
centering offsets computed from the actual rendered image dimensions and
the cell dimensions. -/
structure FitResult where
  finalWidth : ℚ
  finalHeight : ℚ
  offsetX : ℚ
  offsetY : ℚ
deriving Repr, DecidableEq

/-- Aspect-ratio-preserving fit of one card into its cell, as computed in
the batch route from the sharp metadata of the rendered card buffer (not
from the nominal template aspect ratio): fit to the cell width when the
image is proportionally wider, otherwise to the cell height, then center
both ways. -/
def fitInCell (imgW imgH cardW cardH : ℚ) : FitResult :=
  let imageAspectRatio := imgW / imgH
  if imageAspectRatio > cardW / cardH then
    let fw := cardW
    let fh := cardW / imageAspectRatio
    { finalWidth := fw, finalHeight := fh
      offsetX := (cardW - fw) / 2, offsetY := (cardH - fh) / 2 }
  else
    let fh := cardH
    let fw := cardH * imageAspectRatio
    { finalWidth := fw, finalHeight := fh
      offsetX := (cardW - fw) / 2, offsetY := (cardH - fh) / 2 }

/-- Optional request range of the batch route. -/
structure RangeReq where
  rStart : Option ℕ := none
  rEnd : Option ℕ := none
deriving Repr, DecidableEq

/-- Start index of the processed rows: the requested start or zero; it is
not clamped to the dataset length. -/
def batchStart (r : Option RangeReq) : ℕ :=
  ((r.bind RangeReq.rStart).getD 0)

/-- End index of the processed rows: the requested end or the dataset
length, clamped to the dataset length. -/
def batchEnd (r : Option RangeReq) (len : ℕ) : ℕ :=
  min ((r.bind RangeReq.rEnd).getD len) len

/-- Row indices visited by the processing loop: from the start index up
to but excluding the end index. -/
def renderedIndices (r : Option RangeReq) (len : ℕ) : List ℕ :=
  List.range' (batchStart r) (batchEnd r len - batchStart r)

/-- Count reported in the response JSON: the clamped end minus the start,
as a possibly negative integer. -/
def reportedCount (r : Option RangeReq) (len : ℕ) : ℤ :=
  (batchEnd r len : ℤ) - (batchStart r : ℤ)

/-! Embedding of the enhanced cmykPdf module (convertToCMYK,
isGhostscriptAvailable, validateCMYKPDF, convertToCMYKWithValidation). -/

/-- Environment for the Ghostscript subprocess calls: the version probe,
the conversion run together with the bytes of the output file it writes,
and the analysis run with its textual output. Each call returns an error
when the subprocess would throw. -/
structure GsEnv where
  gsVersion : Except String Unit
  runConvert : Buffer → Except String Buffer
  runAnalysis : Buffer → Except String String

/-- Model of isGhostscriptAvailable: true exactly when the version probe
subprocess succeeds. -/
def isGhostscriptAvailable (env : GsEnv) : Bool :=
  match env.gsVersion with
  | .ok _ => true
  | .error _ => false

/-- Model of convertToCMYK: run the conversion subprocess and return the
converted bytes; a subprocess failure is caught and rethrown as a
conversion error, so the function itself throws. -/
def convertToCMYK (env : GsEnv) (rgbPdfBuffer : Buffer) : Except String Buffer :=
  match env.runConvert rgbPdfBuffer with
  | .ok out => .ok out
  | .error e => .error ("CMYK conversion failed: " ++ e)

/-- Validation result object of validateCMYKPDF. -/
structure CMYKValidation where
  isCMYK : Bool
  hasRGB : Bool
  fullyConverted : Bool
  analysis : Option String
  errMsg : Option String
deriving Repr, DecidableEq

/-- Model of validateCMYKPDF: on a successful analysis run, report the
presence of the color-space tokens in the output and set fullyConverted
exactly when DeviceCMYK occurs and DeviceRGB does not; when the analysis
itself fails, report not CMYK, has RGB and not fully converted instead of
throwing. -/
def validateCMYKPDF (env : GsEnv) (pdfBuffer : Buffer) : CMYKValidation :=
  match env.runAnalysis pdfBuffer with
  | .ok output =>
    { isCMYK := isSubstring "DeviceCMYK" output || isSubstring "CMYK" output
      hasRGB := isSubstring "DeviceRGB" output || isSubstring "RGB" output
      fullyConverted := isSubstring "DeviceCMYK" output &&
        !(isSubstring "DeviceRGB" output)
      analysis := some output
      errMsg := none }
  | .error e =>
    { isCMYK := false
      hasRGB := true
      fullyConverted := false
      analysis := none
      errMsg := some e }

/-- Result object of convertToCMYKWithValidation. -/
structure ConvResult where
  buffer : Buffer
  validation : CMYKValidation
  fullyConverted : Bool
  size : ℕ
  originalSize : ℕ
deriving Repr, DecidableEq

/-- Model of convertToCMYKWithValidation: convert, then validate the
converted bytes; the conversion error propagates, the validation never
fails. -/
def convertToCMYKWithValidation (env : GsEnv) (rgbPdfBuffer : Buffer) :
    Except String ConvResult := do
  let cmykBuffer ← convertToCMYK env rgbPdfBuffer
  let validation := validateCMYKPDF env cmykBuffer
  .ok { buffer := cmykBuffer
        validation := validation
        fullyConverted := validation.fullyConverted
        size := cmykBuffer.length
        originalSize := rgbPdfBuffer.length }

/-- Conversion stage of the batch route around the finished PDF: when
CMYK is requested and the probe is positive, convert with validation and
fall back to the RGB bytes with a null conversion result on error; when
the probe is negative or CMYK is not requested, the conversion is skipped
entirely and the original bytes are kept with a null conversion result. -/
def batchConversionStage (env : GsEnv) (cmyk : Bool) (pdfBuffer : Buffer) :
    Buffer × Option ConvResult :=
  let shouldConvertToCMYK := cmyk && isGhostscriptAvailable env
  if shouldConvertToCMYK then
    match convertToCMYKWithValidation env pdfBuffer with
    | .ok r => (r.buffer, some r)
    | .error _ => (pdfBuffer, none)
  else (pdfBuffer, none)

/-! Concrete fixtures used by witnesses and counterexamples. -/

/-- Simple render environment for concrete evaluations: GridFS empty,
decoding succeeds with a 400 by 250 image, resizing is the identity,
HTTP fetches fail, the filesystem is empty. -/
def env0 : RenderEnv :=
  { gridfsRead := fun _ _ => .ok none
    decodeBuffer := fun _ => .ok { width := 400, height := 250 }
    decodeFile := fun _ => .ok { width := 400, height := 250 }
    resize := fun b _ _ => .ok b
    compositePng := fun _ => .ok ()
    httpFetch := fun _ => .error "HTTP 404"
    fileRead := fun _ => none
    decodeBase64 := fun _ => [137, 80] }

/-- Render environment whose image fetches and resizes all fail. -/
def envFail : RenderEnv :=
  { gridfsRead := fun _ _ => .error "connection refused"
    decodeBuffer := fun _ => .error "unsupported image format"
    decodeFile := fun _ => .error "missing file"
    resize := fun _ _ _ => .error "unsupported image format"
    compositePng := fun _ => .error "unsupported image format"
    httpFetch := fun _ => .error "HTTP 500"
    fileRead := fun _ => none
    decodeBase64 := fun _ => [0] }

/-- Test whether a composite layer is a text layer whose text carries an
ampersand: render.js interpolates the raw value into the SVG text node
with no XML escaping, so such a layer is malformed SVG. -/
def layerTextHasAmp : Layer → Bool
  | .text svg _ _ => svg.text.toList.contains '&'
  | .image _ _ _ _ _ => false

/-- Render environment in which sharp behaves as documented on malformed
input: fetches fail, and the final composite rejects any layer list
holding a text layer with an unescaped ampersand. -/
def envSvgStrict : RenderEnv :=
  { gridfsRead := fun _ _ => .ok none
    decodeBuffer := fun _ => .ok { width := 400, height := 250 }
    decodeFile := fun _ => .ok { width := 400, height := 250 }
    resize := fun b _ _ => .ok b
    compositePng := fun layers =>
      if layers.any layerTextHasAmp then
        .error "Input buffer contains unsupported image format"
      else .ok ()
    httpFetch := fun _ => .error "HTTP 404"
    fileRead := fun _ => none
    decodeBase64 := fun _ => [0] }

/-- Image URL with a query string holding an ampersand. -/
def ampUrl : String := "https://cdn.example.com/a.png?a=1&b=2"

/-- Mapped image field used for the composite-rejection counterexample. -/
def fAmpUrl : Field :=
  { id := "photo2", name := "Photo", type := "image"
    x := 10, y := 10, width := 50, height := 50 }

/-- Template whose single image field is mapped to the Photo column. -/
def tAmp : Template :=
  { name := "badge2"
    image := { storage := "local", key := "base.png" }
    imageMeta := some { width := 400, height := 250, size := 1234 }
    fields := [fAmpUrl]
    mapping := [("photo2", "Photo")] }

/-- Record whose Photo column is the ampersand URL. -/
def ampRecord : DataRecord := [("Photo", ampUrl)]

/-- Image field with fractional position and size, without a mapping. -/
def fImg : Field :=
  { id := "photo1", name := "Photo", type := "image"
    x := 19.5, y := 20.4, width := 180.2, height := 36 }

/-- Template holding the single unmapped image field. -/
def tUnmapped : Template :=
  { name := "badge"
    image := { storage := "local", key := "base.png" }
    imageMeta := some { width := 400, height := 250, size := 1234 }
    fields := [fImg]
    mapping := [] }

/-- Template with no fields, used for dimension witnesses. -/
def tPlain : Template :=
  { name := "plain"
    image := { storage := "local", key := "base.png" }
    imageMeta := some { width := 400, height := 250, size := 1234 }
    fields := []
    mapping := [] }

/-- Ghostscript environment in which the tool is missing: every
subprocess call fails. -/
def gsMissingEnv : GsEnv :=
  { gsVersion := .error "spawnSync gs ENOENT"
    runConvert := fun _ => .error "gs: command not found"
    runAnalysis := fun _ => .error "gs: command not found" }

/-- Ghostscript environment in which conversion succeeds and the
analysis reports only DeviceCMYK. -/
def gsOkEnv : GsEnv :=
  { gsVersion := .ok ()
    runConvert := fun b => .ok (0 :: b)
    runAnalysis := fun _ => .ok "Color spaces in PDF: DeviceCMYK" }

/-! Claims about the composition engine. -/

/-- Case form of renderOne: an error is a base-resolution error or a
rejection of the final composite and encode step, and a success carries
the base metadata dimensions. -/
theorem renderOne_cases (env : RenderEnv) (t : Template) (record : DataRecord) :
    renderOne env t record =
      match templateBaseMeta env t with
      | .error e => .error e
      | .ok meta =>
        match env.compositePng (renderLayers env t record) with
        | .error e => .error e
        | .ok _ =>
          .ok { image := { width := meta.width, height := meta.height
                           layers := renderLayers env t record }
                width := meta.width, height := meta.height } := by
  unfold renderOne
  cases templateBaseMeta env t with
  | error e => rfl
  | ok meta => cases env.compositePng (renderLayers env t record) <;> rfl

/-- C1: renderRecord output dimensions are exactly the base image
metadata dimensions, and under the upload invariant that the stored
imageMeta equals the base image metadata they are exactly the stored
imageMeta of the template; the base image is never resized. -/
theorem renderOne_dims_eq_base (env : RenderEnv) (t : Template)
    (record : DataRecord) :
    (∀ res, renderOne env t record = .ok res →
      ∃ meta, templateBaseMeta env t = .ok meta ∧
        res.width = meta.width ∧ res.height = meta.height ∧
        res.image.width = meta.width ∧ res.image.height = meta.height) ∧
    (∀ res m mb, renderOne env t record = .ok res →
      t.imageMeta = some m → templateBaseMeta env t = .ok mb →
      m.width = (mb.width : ℚ) → m.height = (mb.height : ℚ) →
      (res.width : ℚ) = m.width ∧ (res.height : ℚ) = m.height) := by
  rw [renderOne_cases]
  cases h : templateBaseMeta env t with
  | ok meta =>
    cases hcp : env.compositePng (renderLayers env t record) with
    | ok u =>
      constructor
      · intro res hres
        have hr := Except.ok.inj hres
        subst hr
        exact ⟨meta, rfl, rfl, rfl, rfl, rfl⟩
      · intro res m mb hres hm hmb hw hh
        have hr := Except.ok.inj hres
        subst hr
        have hmeta := Except.ok.inj hmb
        subst hmeta
        exact ⟨hw.symm, hh.symm⟩
    | error e =>
      constructor
      · intro res hres
        cases hres
      · intro res m mb hres
        cases hres
  | error e =>
    constructor
    · intro res hres
      cases hres
    · intro res m mb hres
      cases hres

/-- C1 witness: on the plain template and the simple environment the
rendered card is 400 by 250, equal to both the base metadata and the
stored imageMeta. -/
theorem renderOne_dims_eq_base_witness :
    ((400 : ℚ) = ((400 : ℕ) : ℚ)) ∧
    (( { image := { width := 400, height := 250, layers := [] }
         width := 400, height := 250 } : RenderedCard).width : ℚ) = 400 := by
  refine ⟨by norm_num, ?_⟩
  have h := (renderOne_dims_eq_base env0 tPlain []).2
    { image := { width := 400, height := 250, layers := [] }
      width := 400, height := 250 }
    { width := 400, height := 250, size := 1234 }
    { width := 400, height := 250 }
    rfl rfl rfl (by norm_num) (by norm_num)
  exact h.1

/-- C4 counterexample: a template whose single field is an image field
with no mapping entry still emits one composite layer (a text layer), so
the field is not skipped. -/
theorem unmapped_image_field_emits_layer :
    resolveSource tUnmapped [("Name", "Alice")] "photo1" = none ∧
    renderLayers env0 tUnmapped [("Name", "Alice")] = [textLayer fImg none] ∧
    [textLayer fImg none] ≠ ([] : List Layer) := by
  refine ⟨rfl, rfl, by simp⟩

/-- C4 amended: for an image field whose id has no entry in the mapping,
the resolver yields undefined and no image layer is emitted for the
field, but the field is not skipped: a text layer with empty text is
emitted at the field position. -/
theorem unmapped_image_field_renders_empty_text (env : RenderEnv)
    (t : Template) (record : DataRecord) (f : Field)
    (himg : f.type = "image") (hmap : t.mapping.lookup f.id = none) :
    resolveSource t record f.id = none ∧
    renderField env f (resolveSource t record f.id) = textLayer f none ∧
    (renderField env f (resolveSource t record f.id)).isImage = false ∧
    (makeTextSVG (none : Option String) f.width f.height f.style).text = "" := by
  have hres : resolveSource t record f.id = none := by
    simp [resolveSource, hmap]
  refine ⟨hres, ?_, ?_, rfl⟩
  · rw [hres]
    simp [renderField, jsTruthy]
  · rw [hres]
    simp [renderField, jsTruthy, textLayer, Layer.isImage]

/-- C4 amended witness: the unmapped image field of the concrete
template renders as the empty text layer. -/
theorem unmapped_image_field_renders_empty_text_witness :
    resolveSource tUnmapped [("Name", "Alice")] "photo1" = none ∧
    renderField env0 fImg (resolveSource tUnmapped [("Name", "Alice")] "photo1")
      = textLayer fImg none := by
  have h := unmapped_image_field_renders_empty_text env0 tUnmapped
    [("Name", "Alice")] fImg rfl rfl
  exact ⟨h.1, h.2.1⟩

/-- C5 counterexample: a mapped image field whose URL cannot be fetched
degrades to a text layer holding the raw value, but the raw value
reaches the SVG markup unescaped, so the final composite step rejects
the layer and renderOne propagates the error to the caller: a
field-level image failure aborts the overall record render. -/
theorem svg_fallback_aborts_render :
    loadImageBuffer envSvgStrict ampUrl = none ∧
    renderLayers envSvgStrict tAmp ampRecord = [textLayer fAmpUrl (some ampUrl)] ∧
    renderOne envSvgStrict tAmp ampRecord =
      .error "Input buffer contains unsupported image format" := by
  exact ⟨by decide, rfl, rfl⟩

/-- C5 amended: a failed image load and a failed resize both degrade to
the text rendering of the raw value and the field loop itself never
throws: renderRecord errors come only from base-image resolution or
from the final composite and encode step, which can reject a fallback
text layer because the raw value is interpolated into the SVG markup
unescaped; so a field-level image failure can still abort the render at
the composite stage, though never inside the field loop. -/
theorem render_failure_degrades_to_text (env : RenderEnv) (f : Field)
    (v : Option String) :
    (loadImageBuffer env (jsStringOrEmpty v) = none →
      renderField env f v = textLayer f v) ∧
    (∀ buf e, loadImageBuffer env (jsStringOrEmpty v) = some buf →
      env.resize buf (jsRound f.width) (jsRound f.height) = .error e →
      renderField env f v = textLayer f v) ∧
    (∀ (t : Template) (record : DataRecord) e,
      renderOne env t record = .error e →
      templateBaseMeta env t = .error e ∨
        (∃ meta, templateBaseMeta env t = .ok meta ∧
          env.compositePng (renderLayers env t record) = .error e)) := by
  refine ⟨?_, ?_, ?_⟩
  · intro hnone
    unfold renderField
    split
    · simp only [hnone]
    · rfl
  · intro buf e hsome herr
    unfold renderField
    split
    · simp only [hsome, herr]
    · rfl
  · intro t record e hres
    rw [renderOne_cases] at hres
    cases h : templateBaseMeta env t with
    | ok meta =>
      rw [h] at hres
      cases hcp : env.compositePng (renderLayers env t record) with
      | ok u => rw [hcp] at hres; cases hres
      | error e2 =>
        rw [hcp] at hres
        have he := Except.error.inj hres
        exact Or.inr ⟨meta, rfl, congrArg Except.error he⟩
    | error e2 =>
      rw [h] at hres
      have he := Except.error.inj hres
      exact Or.inl (congrArg Except.error he)

/-- C5 witness: for a mapped image field whose URL cannot be fetched,
the failing environment renders the raw value as text. -/
theorem render_failure_degrades_to_text_witness :
    renderField envFail fImg (some "https://cdn.example.com/a.png") =
      textLayer fImg (some "https://cdn.example.com/a.png") := by
  have h := (render_failure_degrades_to_text envFail fImg
    (some "https://cdn.example.com/a.png")).1
  exact h (by decide)

/-- C10: every composite layer is placed at the rounded field
coordinates, and every image layer is resized to exactly the rounded
field width and height. -/
theorem layer_placement_rounded (env : RenderEnv) (f : Field)
    (v : Option String) :
    (renderField env f v).left = jsRound f.x ∧
    (renderField env f v).top = jsRound f.y ∧
    (∀ buf w h l t, renderField env f v = .image buf w h l t →
      w = jsRound f.width ∧ h = jsRound f.height) := by
  unfold renderField
  split
  · split
    · split
      · refine ⟨rfl, rfl, ?_⟩
        intro buf2 w h l t heq
        injection heq with hb hw hh hl2 ht
        exact ⟨hw.symm, hh.symm⟩
      · refine ⟨rfl, rfl, ?_⟩
        intro buf2 w h l t heq
        simp [textLayer] at heq
    · refine ⟨rfl, rfl, ?_⟩
      intro buf2 w h l t heq
      simp [textLayer] at heq
  · refine ⟨rfl, rfl, ?_⟩
    intro buf2 w h l t heq
    simp [textLayer] at heq

/-- C10 witness: the fractional field placed at x 19.5, y 20.4 with
width 180.2 and height 36 yields a layer at (20, 20), and an image layer
resized to 180 by 36. -/
theorem layer_placement_rounded_witness :
    (renderField env0 fImg (some "data:image/png;base64,iVBOR")).left = 20 ∧
    (renderField env0 fImg (some "data:image/png;base64,iVBOR")).top = 20 ∧
    jsRound (180.2 : ℚ) = 180 ∧ jsRound (36 : ℚ) = 36 := by
  have h := layer_placement_rounded env0 fImg (some "data:image/png;base64,iVBOR")
  refine ⟨?_, ?_, ?_, ?_⟩
  · rw [h.1]; show jsRound (19.5 : ℚ) = 20; norm_num [jsRound]
  · rw [h.2.1]; show jsRound (20.4 : ℚ) = 20; norm_num [jsRound]
  · norm_num [jsRound]
  · norm_num [jsRound]

/-! Claims about the CMYK conversion and validation. -/

/-- C6 counterexample: when the tool is absent the capability probe is
negative and convertToCMYK throws a conversion error instead of
returning the original bytes. -/
theorem convertToCMYK_throws_without_tool :
    isGhostscriptAvailable gsMissingEnv = false ∧
    convertToCMYK gsMissingEnv [1, 2, 3] =
      .error "CMYK conversion failed: gs: command not found" := by
  exact ⟨rfl, rfl⟩

/-- C6 amended: when the capability probe is negative the batch route
skips conversion entirely: convertToCMYK is never invoked, no exception
escapes, the original document bytes are kept unmodified, and the
response carries a null conversion result (carrying no fullyConverted
flag) rather than one with fullyConverted false. -/
theorem probe_negative_skips_conversion (env : GsEnv) (cmyk : Bool)
    (pdfBuffer : Buffer) (h : isGhostscriptAvailable env = false) :
    batchConversionStage env cmyk pdfBuffer = (pdfBuffer, none) := by
  unfold batchConversionStage
  rw [h, Bool.and_false]
  simp

/-- C6 amended witness: with the tool missing, the stage keeps the exact
input bytes and reports no conversion result. -/
theorem probe_negative_skips_conversion_witness :
    batchConversionStage gsMissingEnv true [1, 2, 3] = ([1, 2, 3], none) := by
  exact probe_negative_skips_conversion gsMissingEnv true [1, 2, 3] rfl

/-- Case form of convertToCMYKWithValidation: the conversion result
mapped into the result record. -/
theorem convertWithValidation_cases (env : GsEnv) (rgb : Buffer) :
    convertToCMYKWithValidation env rgb = (convertToCMYK env rgb).map
      (fun cmykBuffer =>
        { buffer := cmykBuffer
          validation := validateCMYKPDF env cmykBuffer
          fullyConverted := (validateCMYKPDF env cmykBuffer).fullyConverted
          size := cmykBuffer.length
          originalSize := rgb.length }) := by
  unfold convertToCMYKWithValidation
  cases convertToCMYK env rgb <;> rfl

/-- C7: the validator reports the presence of the DeviceCMYK and
DeviceRGB tokens in the analysis output, fullyConverted holds exactly
when DeviceCMYK occurs and DeviceRGB does not, a validator failure
reports not fully converted instead of failing, and the combined
conversion result carries the validation verdict. -/
theorem validate_cmyk_reports_tokens (env : GsEnv) (pdfBuffer : Buffer) :
    (∀ out, env.runAnalysis pdfBuffer = .ok out →
      (validateCMYKPDF env pdfBuffer).isCMYK =
        (isSubstring "DeviceCMYK" out || isSubstring "CMYK" out) ∧
      (validateCMYKPDF env pdfBuffer).hasRGB =
        (isSubstring "DeviceRGB" out || isSubstring "RGB" out) ∧
      ((validateCMYKPDF env pdfBuffer).fullyConverted = true ↔
        isSubstring "DeviceCMYK" out = true ∧
        isSubstring "DeviceRGB" out = false)) ∧
    (∀ e, env.runAnalysis pdfBuffer = .error e →
      (validateCMYKPDF env pdfBuffer).fullyConverted = false) ∧
    (∀ rgb r, convertToCMYKWithValidation env rgb = .ok r →
      r.fullyConverted = (validateCMYKPDF env r.buffer).fullyConverted) := by
  refine ⟨?_, ?_, ?_⟩
  · intro out hout
    simp [validateCMYKPDF, hout, Bool.and_eq_true, Bool.not_eq_true']
  · intro e he
    simp [validateCMYKPDF, he]
  · intro rgb r hr
    rw [convertWithValidation_cases] at hr
    cases hc : convertToCMYK env rgb with
    | ok out =>
      rw [hc] at hr
      simp only [Except.map] at hr
      have hrr := Except.ok.inj hr
      subst hrr
      rfl
    | error e =>
      rw [hc] at hr
      simp [Except.map] at hr

/-- C7 witness: an analysis output holding only DeviceCMYK validates as
fully converted. -/
theorem validate_cmyk_reports_tokens_witness :
    ((validateCMYKPDF gsOkEnv [1]).fullyConverted = true ↔
      isSubstring "DeviceCMYK" "Color spaces in PDF: DeviceCMYK" = true ∧
      isSubstring "DeviceRGB" "Color spaces in PDF: DeviceCMYK" = false) ∧
    (validateCMYKPDF gsOkEnv [1]).fullyConverted = true := by
  have h := ((validate_cmyk_reports_tokens gsOkEnv [1]).1
    "Color spaces in PDF: DeviceCMYK" rfl).2.2
  exact ⟨h, h.mpr (by decide)⟩

/-! Claims about the pagination loop. -/

/-- Successor modulo identity used to track the current page fill. -/
theorem succ_mod (n m : ℕ) : (n + 1) % m = (n % m + 1) % m := by
  have h := Nat.div_add_mod n m
  rw [show n + 1 = (n % m + 1) + m * (n / m) by omega,
    Nat.add_mul_mod_self_left]

/-- Predecessor form of the successor modulo identity. -/
theorem succ_pred_mod (count m : ℕ) (hcount : 0 < count) :
    count % m = ((count - 1) % m + 1) % m := by
  conv_lhs => rw [show count = (count - 1) + 1 by omega]
  rw [succ_mod]

/-- The pagination loop, entered with a positive count and a current page
holding exactly the cards of the page in progress, produces the chunking
of the remaining records appended to that page. -/
theorem composeLoop_eq_chunk (cpp : ℕ) (hc : 0 < cpp) :
    ∀ (rs : List ℕ) (count : ℕ) (cur : List ℕ), 0 < count →
      cur.length = (count - 1) % cpp + 1 →
      composeLoop cpp count cur rs = chunkPages cpp (cur.reverse ++ rs) := by
  intro rs
  induction rs with
  | nil =>
    intro count cur hcount hlen
    have hpos : 0 < cur.length := by omega
    obtain ⟨a, l, hal⟩ : ∃ a l, cur.reverse = a :: l := by
      cases hrev : cur.reverse with
      | nil =>
        exfalso
        have := congrArg List.length hrev
        simp only [List.length_reverse, List.length_nil] at this
        omega
      | cons a l => exact ⟨a, l, rfl⟩
    have hlen2 : l.length ≤ cpp - 1 := by
      have hd := congrArg List.length hal
      simp only [List.length_reverse, List.length_cons] at hd
      have hmod : (count - 1) % cpp < cpp := Nat.mod_lt _ hc
      omega
    show [cur.reverse] = chunkPages cpp (cur.reverse ++ [])
    rw [List.append_nil, hal, chunkPages]
    rw [List.take_of_length_le hlen2, List.drop_eq_nil_of_le hlen2]
    simp [chunkPages]
  | cons r rs ih =>
    intro count cur hcount hlen
    by_cases hsplit : count % cpp = 0 ∧ 0 < count
    · have hfull : cur.length = cpp := by
        obtain ⟨hmod0, _⟩ := hsplit
        have hmlt : (count - 1) % cpp < cpp := Nat.mod_lt _ hc
        rcases Nat.lt_or_ge ((count - 1) % cpp + 1) cpp with h1 | h1
        · exfalso
          have h2 : count % cpp = (count - 1) % cpp + 1 := by
            rw [succ_pred_mod count cpp hcount]
            exact Nat.mod_eq_of_lt h1
          omega
        · omega
      show (if count % cpp = 0 ∧ 0 < count then
          cur.reverse :: composeLoop cpp (count + 1) [r] rs
        else composeLoop cpp (count + 1) (r :: cur) rs) = _
      rw [if_pos hsplit]
      have hIH := ih (count + 1) [r] (by omega)
        (by simp [hsplit.1])
      rw [hIH]
      have hsing : [r].reverse ++ rs = r :: rs := by simp
      rw [hsing]
      obtain ⟨a, l, hal⟩ : ∃ a l, cur.reverse = a :: l := by
        cases hrev : cur.reverse with
        | nil =>
          exfalso
          have := congrArg List.length hrev
          simp only [List.length_reverse, List.length_nil] at this
          omega
        | cons a l => exact ⟨a, l, rfl⟩
      have hl1 : l.length = cpp - 1 := by
        have hd := congrArg List.length hal
        simp only [List.length_reverse, List.length_cons] at hd
        omega
      rw [hal]
      conv_rhs => rw [List.cons_append, chunkPages]
      rw [← hl1, List.take_left, List.drop_left]
    · have hmodne : count % cpp ≠ 0 := by tauto
      have hmlt : (count - 1) % cpp < cpp := Nat.mod_lt _ hc
      have hlt : (count - 1) % cpp + 1 < cpp := by
        rcases Nat.lt_or_ge ((count - 1) % cpp + 1) cpp with h1 | h1
        · exact h1
        · exfalso
          have heq : (count - 1) % cpp + 1 = cpp := by omega
          have h2 : count % cpp = 0 := by
            rw [succ_pred_mod count cpp hcount, heq, Nat.mod_self]
          exact hmodne h2
      have hmodsucc : count % cpp = (count - 1) % cpp + 1 := by
        rw [succ_pred_mod count cpp hcount]
        exact Nat.mod_eq_of_lt hlt
      show (if count % cpp = 0 ∧ 0 < count then
          cur.reverse :: composeLoop cpp (count + 1) [r] rs
        else composeLoop cpp (count + 1) (r :: cur) rs) = _
      rw [if_neg hsplit]
      have hIH := ih (count + 1) (r :: cur) (by omega)
        (by simp [hlen, hmodsucc])
      rw [hIH]
      congr 1
      simp

/-- The full pagination of a non-empty record list is exactly the
consecutive chunking by the cards-per-page count. -/
theorem composePages_eq_chunk (cpp : ℕ) (hc : 0 < cpp) (r : ℕ)
    (rs : List ℕ) :
    composePages cpp (r :: rs) = chunkPages cpp (r :: rs) := by
  unfold composePages
  show (if 0 % cpp = 0 ∧ 0 < 0 then _ else composeLoop cpp 1 [r] rs) = _
  rw [if_neg (by omega)]
  have h := composeLoop_eq_chunk cpp hc rs 1 [r] (by omega) (by simp)
  simpa using h

/-- Chunking preserves the records and their order. -/
theorem chunkPages_flatten (cpp : ℕ) (hc : 0 < cpp) :
    ∀ l, (chunkPages cpp l).flatten = l := by
  have key : ∀ n l, List.length l ≤ n → (chunkPages cpp l).flatten = l := by
    intro n
    induction n with
    | zero =>
      intro l hl
      have hnil : l = [] := by
        cases l with
        | nil => rfl
        | cons a t => simp at hl
      rw [hnil]
      simp [chunkPages]
    | succ n ih =>
      intro l hl
      cases l with
      | nil => simp [chunkPages]
      | cons r rs =>
        rw [chunkPages]
        simp only [List.flatten_cons]
        rw [ih (rs.drop (cpp - 1)) (by simp [List.length_drop] at hl ⊢; omega)]
        simp [List.take_append_drop]
  intro l
  exact key l.length l le_rfl

/-- C2: the pagination loop fills pages with consecutive chunks of the
input in original order, the in-loop cell formulas are cell index modulo
cards-per-page with row and column by division and remainder by
cards-per-row, a new page starts exactly at a positive multiple of the
page size, and 12 records at 6 cards per page give exactly the two pages
holding records 0 to 5 and 6 to 11. -/
theorem pagination_grid (cpp cpr : ℕ) (hc : 0 < cpp) (r0 : ℕ)
    (rs : List ℕ) :
    composePages cpp (r0 :: rs) = chunkPages cpp (r0 :: rs) ∧
    (composePages cpp (r0 :: rs)).flatten = r0 :: rs ∧
    (∀ i, cellOf cpp cpr i = (i % cpp, (i % cpp) / cpr, (i % cpp) % cpr)) ∧
    (∀ i, newPageBefore cpp i = ((i % cpp == 0) && decide (0 < i))) ∧
    composePages 6 (List.range 12) =
      [[0, 1, 2, 3, 4, 5], [6, 7, 8, 9, 10, 11]] ∧
    (composePages 6 (List.range 12)).length = 2 := by
  refine ⟨composePages_eq_chunk cpp hc r0 rs, ?_, fun i => rfl, fun i => rfl,
    by decide, by decide⟩
  rw [composePages_eq_chunk cpp hc r0 rs]
  exact chunkPages_flatten cpp hc (r0 :: rs)

/-- C2 witness: the 12-record, 6-per-page scenario evaluated through the
theorem. -/
theorem pagination_grid_witness :
    composePages 6 (List.range 12) =
      [[0, 1, 2, 3, 4, 5], [6, 7, 8, 9, 10, 11]] ∧
    (composePages 6 (List.range 12)).length = 2 ∧
    cellOf 6 3 7 = (1, 0, 1) := by
  obtain ⟨-, -, hcell, -, hpages, hlen⟩ :=
    pagination_grid 6 3 (by decide) 0 [1]
  refine ⟨hpages, hlen, ?_⟩
  rw [hcell 7]

/-! Claims about the batch range handling. -/

/-- C9: the rendered row indices are exactly those from the unclamped
start up to the end clamped to the dataset length, the reported count is
the clamped end minus the start, the number rendered is that difference
clamped below at zero, and with start 5 on a 3-row dataset the reported
count is minus two while nothing is rendered. -/
theorem batch_range_semantics (r : Option RangeReq) (len : ℕ) :
    (∀ i, i ∈ renderedIndices r len ↔
      batchStart r ≤ i ∧ i < batchEnd r len) ∧
    ((renderedIndices r len).length : ℤ) = max (reportedCount r len) 0 ∧
    reportedCount (some { rStart := some 5, rEnd := none }) 3 = -2 ∧
    (renderedIndices (some { rStart := some 5, rEnd := none }) 3).length = 0 := by
  refine ⟨?_, ?_, by decide, by decide⟩
  · intro i
    unfold renderedIndices
    rw [List.mem_range'_1]
    omega
  · unfold renderedIndices reportedCount
    rw [List.length_range']
    rcases max_cases ((batchEnd r len : ℤ) - (batchStart r : ℤ)) 0 with
      ⟨heq, hge⟩ | ⟨heq, hlt⟩ <;> rw [heq] <;> omega

/-- C9 witness: on a 12-row dataset with no range, row 5 is rendered. -/
theorem batch_range_semantics_witness :
    5 ∈ renderedIndices none 12 := by
  exact ((batch_range_semantics none 12).1 5).mpr (by decide)

/-! Claim about the per-cell fit. -/

/-- C8: a card whose aspect ratio equals the cell ratio is placed with
both centering offsets zero; a card proportionally narrower than the
cell is fitted to the cell height and centered horizontally with a
strictly positive horizontal offset; the fit is computed from the actual
image dimensions passed in, which the route reads from the rendered card
buffer. -/
theorem fit_centering_offsets (imgW imgH cardW cardH : ℚ)
    (hW : 0 < imgW) (hH : 0 < imgH) (hcW : 0 < cardW) (hcH : 0 < cardH) :
    (imgW / imgH = cardW / cardH →
      (fitInCell imgW imgH cardW cardH).offsetX = 0 ∧
      (fitInCell imgW imgH cardW cardH).offsetY = 0) ∧
    (imgW / imgH < cardW / cardH →
      (fitInCell imgW imgH cardW cardH).finalHeight = cardH ∧
      (fitInCell imgW imgH cardW cardH).offsetY = 0 ∧
      (fitInCell imgW imgH cardW cardH).offsetX =
        (cardW - (fitInCell imgW imgH cardW cardH).finalWidth) / 2 ∧
      0 < (fitInCell imgW imgH cardW cardH).offsetX) := by
  constructor
  · intro heq
    have hnot : ¬ (imgW / imgH > cardW / cardH) := by
      rw [heq]; exact lt_irrefl _
    unfold fitInCell
    rw [if_neg hnot]
    constructor
    · show (cardW - cardH * (imgW / imgH)) / 2 = 0
      rw [heq]
      field_simp
    · show (cardH - cardH) / 2 = 0
      ring
  · intro hlt
    have hnot : ¬ (imgW / imgH > cardW / cardH) := not_lt.mpr (le_of_lt hlt)
    unfold fitInCell
    rw [if_neg hnot]
    have hmul : imgW / imgH * cardH < cardW := by
      rw [div_lt_div_iff hH hcH] at hlt
      rw [div_mul_eq_mul_div, div_lt_iff hH]
      linarith
    refine ⟨rfl, ?_, rfl, ?_⟩
    · show (cardH - cardH) / 2 = 0
      ring
    · show 0 < (cardW - cardH * (imgW / imgH)) / 2
      have : cardH * (imgW / imgH) < cardW := by
        rw [mul_comm]; exact hmul
      linarith

/-- C8 witness: a 2 by 1 image in a 4 by 2 cell sits with zero offsets,
and a 1 by 1 image in the same cell is fitted to the cell height with a
horizontal offset of 1. -/
theorem fit_centering_offsets_witness :
    ((fitInCell 2 1 4 2).offsetX = 0 ∧ (fitInCell 2 1 4 2).offsetY = 0) ∧
    ((fitInCell 1 1 4 2).finalHeight = 2 ∧ (fitInCell 1 1 4 2).offsetY = 0 ∧
      0 < (fitInCell 1 1 4 2).offsetX) := by
  constructor
  · exact (fit_centering_offsets 2 1 4 2 (by norm_num) (by norm_num)
      (by norm_num) (by norm_num)).1 (by norm_num)
  · have h := (fit_centering_offsets 1 1 4 2 (by norm_num) (by norm_num)
      (by norm_num) (by norm_num)).2 (by norm_num)
    exact ⟨h.1, h.2.1, h.2.2.2⟩

/-! Claim about the layout planner search. -/

/-- Once the search holds a best layout it never returns to null. -/
theorem selectStep_keeps_some (cs : List LayoutPlan) :
    ∀ (B : LayoutPlan) (m : ℤ), ∃ C,
      (cs.foldl selectStep (some B, m)).1 = some C := by
  induction cs with
  | nil => intro B m; exact ⟨B, rfl⟩
  | cons c cs ih =>
    intro B m
    simp only [List.foldl_cons]
    by_cases h : c.cardsPerPage > m ∧ 0 < c.cardsPerRow ∧ 0 < c.cardsPerCol
    · rw [show selectStep (some B, m) c = (some c, c.cardsPerPage) from by
        unfold selectStep; rw [if_pos h]]
      exact ih c c.cardsPerPage
    · rw [show selectStep (some B, m) c = (some B, m) from by
        unfold selectStep; rw [if_neg h]]
      exact ih B m

/-- The search yields null exactly when no candidate both beats the
running maximum and has a positive grid. -/
theorem selectFold_none_iff (cs : List LayoutPlan) :
    ∀ (m : ℤ), (cs.foldl selectStep (none, m)).1 = none ↔
      ∀ c ∈ cs, ¬(c.cardsPerPage > m ∧ 0 < c.cardsPerRow ∧ 0 < c.cardsPerCol) := by
  induction cs with
  | nil => intro m; simp
  | cons c cs ih =>
    intro m
    simp only [List.foldl_cons]
    by_cases h : c.cardsPerPage > m ∧ 0 < c.cardsPerRow ∧ 0 < c.cardsPerCol
    · rw [show selectStep (none, m) c = (some c, c.cardsPerPage) from by
        unfold selectStep; rw [if_pos h]]
      constructor
      · intro hn
        obtain ⟨C, hC⟩ := selectStep_keeps_some cs c c.cardsPerPage
        rw [hC] at hn
        cases hn
      · intro hall
        exact absurd h (hall c (by simp))
    · rw [show selectStep (none, m) c = (none, m) from by
        unfold selectStep; rw [if_neg h]]
      rw [ih m, List.forall_mem_cons]
      simp [h]

/-- Characterization of the search from a held best layout: it either
keeps the held one, with nothing later strictly beating it, or it ends
on a later candidate that strictly beats the held one, beats every valid
candidate before it strictly, and is not strictly beaten afterwards. -/
theorem selectFold_some_char (cs : List LayoutPlan) :
    ∀ (B L : LayoutPlan),
      (cs.foldl selectStep (some B, B.cardsPerPage)).1 = some L →
      (L = B ∧ ∀ c ∈ cs, gridPositive c → c.cardsPerPage ≤ B.cardsPerPage) ∨
      (∃ l1 l2, cs = l1 ++ L :: l2 ∧ gridPositive L ∧
        B.cardsPerPage < L.cardsPerPage ∧
        (∀ c ∈ l1, gridPositive c → c.cardsPerPage < L.cardsPerPage) ∧
        (∀ c ∈ l2, gridPositive c → c.cardsPerPage ≤ L.cardsPerPage)) := by
  induction cs with
  | nil =>
    intro B L h
    left
    exact ⟨(Option.some.inj h).symm, by simp⟩
  | cons c cs ih =>
    intro B L h
    simp only [List.foldl_cons] at h
    by_cases hc : c.cardsPerPage > B.cardsPerPage ∧
        0 < c.cardsPerRow ∧ 0 < c.cardsPerCol
    · rw [show selectStep (some B, B.cardsPerPage) c = (some c, c.cardsPerPage)
        from by unfold selectStep; rw [if_pos hc]] at h
      rcases ih c L h with ⟨hLc, hall⟩ | ⟨l1, l2, hsp, hgp, hlt, hl1, hl2⟩
      · right
        refine ⟨[], cs, by simp [hLc], ?_, ?_, by simp, ?_⟩
        · rw [hLc]; exact ⟨hc.2.1, hc.2.2⟩
        · rw [hLc]; exact hc.1
        · intro x hx hgx
          have := hall x hx hgx
          rw [hLc]
          exact this
      · right
        refine ⟨c :: l1, l2, by rw [hsp, List.cons_append], hgp, lt_trans hc.1 hlt, ?_, hl2⟩
        intro x hx hgx
        rcases List.mem_cons.mp hx with rfl | hx2
        · exact hlt
        · exact hl1 x hx2 hgx
    · rw [show selectStep (some B, B.cardsPerPage) c = (some B, B.cardsPerPage)
        from by unfold selectStep; rw [if_neg hc]] at h
      rcases ih B L h with ⟨hLB, hall⟩ | ⟨l1, l2, hsp, hgp, hlt, hl1, hl2⟩
      · left
        refine ⟨hLB, ?_⟩
        intro x hx hgx
        rcases List.mem_cons.mp hx with rfl | hx2
        · by_contra hgt
          push_neg at hgt
          exact hc ⟨hgt, hgx.1, hgx.2⟩
        · exact hall x hx2 hgx
      · right
        refine ⟨c :: l1, l2, by rw [hsp, List.cons_append], hgp, hlt, ?_, hl2⟩
        intro x hx hgx
        rcases List.mem_cons.mp hx with rfl | hx2
        · have hle : x.cardsPerPage ≤ B.cardsPerPage := by
            by_contra hgt
            push_neg at hgt
            exact hc ⟨hgt, hgx.1, hgx.2⟩
          exact lt_of_le_of_lt hle hlt
        · exact hl1 x hx2 hgx

/-- Characterization of the search from its initial state: a returned
layout is a first maximum of the candidate list, that is, it has a
positive grid, every valid candidate before it has strictly fewer cards
per page and none after it has strictly more. -/
theorem selectFold_start_char (cs : List LayoutPlan) (L : LayoutPlan)
    (h : (cs.foldl selectStep (none, 0)).1 = some L) :
    0 < L.cardsPerPage ∧
    ∃ l1 l2, cs = l1 ++ L :: l2 ∧ gridPositive L ∧
      (∀ c ∈ l1, gridPositive c → c.cardsPerPage < L.cardsPerPage) ∧
      (∀ c ∈ l2, gridPositive c → c.cardsPerPage ≤ L.cardsPerPage) := by
  induction cs with
  | nil => cases h
  | cons c cs ih =>
    simp only [List.foldl_cons] at h
    by_cases hc : c.cardsPerPage > 0 ∧ 0 < c.cardsPerRow ∧ 0 < c.cardsPerCol
    · rw [show selectStep (none, 0) c = (some c, c.cardsPerPage) from by
        unfold selectStep; rw [if_pos hc]] at h
      rcases selectFold_some_char cs c L h with ⟨hLc, hall⟩ |
        ⟨l1, l2, hsp, hgp, hlt, hl1, hl2⟩
      · refine ⟨by rw [hLc]; exact hc.1, [], cs, by simp [hLc], ?_, by simp, ?_⟩
        · rw [hLc]; exact ⟨hc.2.1, hc.2.2⟩
        · intro x hx hgx
          have := hall x hx hgx
          rw [hLc]
          exact this
      · refine ⟨lt_trans hc.1 hlt, c :: l1, l2, by rw [hsp, List.cons_append], hgp, ?_, hl2⟩
        intro x hx hgx
        rcases List.mem_cons.mp hx with rfl | hx2
        · exact hlt
        · exact hl1 x hx2 hgx
    · rw [show selectStep (none, 0) c = (none, 0) from by
        unfold selectStep; rw [if_neg hc]] at h
      obtain ⟨hLpos, l1, l2, hsp, hgp, hl1, hl2⟩ := ih h
      refine ⟨hLpos, c :: l1, l2, by rw [hsp, List.cons_append], hgp, ?_, hl2⟩
      intro x hx hgx
      rcases List.mem_cons.mp hx with rfl | hx2
      · have hle : x.cardsPerPage ≤ 0 := by
          by_contra hgt
          push_neg at hgt
          exact hc ⟨hgt, hgx.1, hgx.2⟩
        omega
      · exact hl1 x hx2 hgx

/-- Candidate layouts built by the planner have a positive cards-per-page
count exactly when their grid counts are both positive. -/
theorem layoutFor_cpp_pos (ar uw uh w : ℚ)
    (h : gridPositive (layoutFor ar uw uh w)) :
    0 < (layoutFor ar uw uh w).cardsPerPage := by
  obtain ⟨h1, h2⟩ := h
  exact mul_pos h1 h2

/-- C3: the planner scans the fixed strictly ascending candidate width
list 200 to the minimum of 400 and the usable width in steps of 20,
derives each candidate by the floor formulas, returns null exactly when
no candidate has a positive grid and then falls back to the fixed width
280 with derived height, and otherwise returns the first candidate
attaining the maximal cards-per-page count. -/
theorem layout_planner_selection (ar uw uh : ℚ) :
    (∀ w, layoutFor ar uw uh w =
      { cardWidth := w, cardHeight := w / ar
        cardsPerRow := jsFloor (uw / w)
        cardsPerCol := jsFloor (uh / (w / ar))
        cardsPerPage := jsFloor (uw / w) * jsFloor (uh / (w / ar)) }) ∧
    testWidths uw = ((List.range 11).map
      (fun k : ℕ => (200 : ℚ) + 20 * (k : ℚ))).filter
      (fun w => w ≤ min 400 uw) ∧
    List.Sorted (· < ·) (testWidths uw) ∧
    (bestLayout ar uw uh = none ↔
      ∀ L ∈ (testWidths uw).map (layoutFor ar uw uh), ¬ gridPositive L) ∧
    (bestLayout ar uw uh = none →
      planLayout ar uw uh = layoutFor ar uw uh 280) ∧
    (∀ L, bestLayout ar uw uh = some L →
      planLayout ar uw uh = L ∧ 0 < L.cardsPerPage ∧
      ∃ l1 l2, (testWidths uw).map (layoutFor ar uw uh) = l1 ++ L :: l2 ∧
        gridPositive L ∧
        (∀ c ∈ l1, gridPositive c → c.cardsPerPage < L.cardsPerPage) ∧
        (∀ c ∈ l2, gridPositive c → c.cardsPerPage ≤ L.cardsPerPage)) := by
  refine ⟨fun w => rfl, rfl, ?_, ?_, ?_, ?_⟩
  · have hbase : List.Pairwise (· < ·)
        ((List.range 11).map (fun k : ℕ => (200 : ℚ) + 20 * (k : ℚ))) := by
      refine List.Pairwise.map _ ?_ (List.pairwise_lt_range 11)
      intro a b hab
      have : (a : ℚ) < b := by exact_mod_cast hab
      linarith
    exact hbase.filter _
  · unfold bestLayout
    rw [selectFold_none_iff]
    constructor
    · intro hall L hL hgp
      have hcpp : 0 < L.cardsPerPage := by
        obtain ⟨w, hw, hwe⟩ := List.mem_map.mp hL
        rw [← hwe]
        exact layoutFor_cpp_pos ar uw uh w (by rw [hwe]; exact hgp)
      exact hall L hL ⟨hcpp, hgp.1, hgp.2⟩
    · intro hall c hc hcond
      exact hall c hc ⟨hcond.2.1, hcond.2.2⟩
  · intro hn
    unfold planLayout
    rw [hn]
    rfl
  · intro L hL
    have hchar := selectFold_start_char _ L hL
    refine ⟨?_, hchar.1, hchar.2⟩
    unfold planLayout
    rw [hL]
    rfl

/-- Evaluation of the planner on a square aspect ratio with a usable
area of 200 by 200: only the width 200 survives the filter and it yields
a one-by-one grid. -/
theorem bestLayout_square_eval :
    bestLayout 1 200 200 = some
      { cardWidth := 200, cardHeight := 200
        cardsPerRow := 1, cardsPerCol := 1, cardsPerPage := 1 } := by
  have hrange : List.range 11 = [0, 1, 2, 3, 4, 5, 6, 7, 8, 9, 10] := by decide
  have hwidths : testWidths 200 = [200] := by
    unfold testWidths
    rw [hrange]
    norm_num [List.filter, min_def]
  unfold bestLayout
  rw [hwidths]
  have hlay : layoutFor 1 200 200 200 =
      { cardWidth := 200, cardHeight := 200
        cardsPerRow := 1, cardsPerCol := 1, cardsPerPage := 1 } := by
    unfold layoutFor jsFloor
    norm_num
  rw [List.map_cons, List.map_nil, hlay, List.foldl_cons, List.foldl_nil]
  rw [show selectStep (none, 0)
      ({ cardWidth := 200, cardHeight := 200
         cardsPerRow := 1, cardsPerCol := 1, cardsPerPage := 1 } : LayoutPlan) =
      (some { cardWidth := 200, cardHeight := 200
              cardsPerRow := 1, cardsPerCol := 1, cardsPerPage := 1 }, 1) from by
    unfold selectStep
    norm_num]

/-- C3 witness: the planner applied to the square instance returns the
single valid candidate, with the first-maximum decomposition. -/
theorem layout_planner_selection_witness :
    planLayout 1 200 200 =
      { cardWidth := 200, cardHeight := 200
        cardsPerRow := 1, cardsPerCol := 1, cardsPerPage := 1 } ∧
    (0 : ℤ) <
      ({ cardWidth := 200, cardHeight := 200
         cardsPerRow := 1, cardsPerCol := 1,
         cardsPerPage := 1 } : LayoutPlan).cardsPerPage := by
  have h := (layout_planner_selection 1 200 200).2.2.2.2.2
    { cardWidth := 200, cardHeight := 200
      cardsPerRow := 1, cardsPerCol := 1, cardsPerPage := 1 }
    bestLayout_square_eval
  exact ⟨h.1, h.2.1⟩

end IDGen
